import Mathlib

/-!
Shallow embedding of the command-execution backend of `specops`
(`src/src-tauri/src/lib.rs`).

Pure Rust string functions are translated directly.  Functions that talk
to the operating system (spawning processes, reading the filesystem) are
embedded as pure functions over explicit descriptions of the OS responses:
a spawn attempt yields either an I/O error kind or a child behaviour
(its per-stream line sequences and exit status), `Command::output()`
yields either an error kind or a completed `ProcessOutput`, and
filesystem queries are passed in as booleans / options.  Where a claim
speaks about which external processes get started, the embedded function
additionally returns the ordered list of `Invocation`s whose spawn the
code attempted.

Rust string primitives (`str::trim`, `str::lines`, `str::find`,
`split(',')`, `trim_end_matches('.')`, `starts_with`) are modelled as
structurally recursive functions over `String.data` so that every
definition evaluates by `decide` / `rfl`.  `char::is_whitespace` is
modelled by `Char.isWhitespace`, which agrees with Rust on ASCII input.
-/

namespace SpecOps

/-! ### Rust string primitives, modelled over `String.data` -/

/-- Rust `str::trim`: remove leading and trailing whitespace. -/
def rustTrim (s : String) : String :=
  String.mk (((s.data.dropWhile Char.isWhitespace).reverse.dropWhile Char.isWhitespace).reverse)

/-- Rust `str::starts_with`. -/
def rustStartsWith (pre s : String) : Bool :=
  pre.data.isPrefixOf s.data

/-- Rust `str.split(c)`: split on a separator character, keeping empty parts. -/
def rustSplitChar (c : Char) (s : String) : List String :=
  (s.data.splitOn c).map String.mk

/-- Rust `str::trim_end_matches('.')`: remove every trailing occurrence of the
character (used by the tools parser with `'.'`). -/
def rustTrimEndMatches (c : Char) (s : String) : String :=
  String.mk ((s.data.reverse.dropWhile (· = c)).reverse)

/-- Helper for `rustLines`: a line that was terminated by a `'\n'` has one
trailing `'\r'` removed (Rust treats `"\r\n"` as a line terminator). -/
def stripCR (cs : List Char) : List Char :=
  if cs.getLast? = some '\r' then cs.dropLast else cs

/-- Helper for `rustLines`, acting on the `'\n'`-separated chunks: the final
chunk kept its original bytes (no terminator followed it) and is dropped
when empty; every earlier chunk was `'\n'`-terminated and loses a trailing
`'\r'`. -/
def rustLinesAux : List (List Char) → List (List Char)
  | [] => []
  | [last] => if last = [] then [] else [last]
  | l :: rest => stripCR l :: rustLinesAux rest

/-- Rust `str::lines`. -/
def rustLines (s : String) : List String :=
  (rustLinesAux (s.data.splitOn '\n')).map String.mk

/-- Rust `line.find(pat)` followed by slicing `line[idx + pat.len()..]`:
returns the text after the first occurrence of `pat`, or `none` when `pat`
does not occur.  Implemented by scanning for the first position where `pat`
is a prefix of the remaining characters. -/
def findAfterSub (pat : List Char) : List Char → Option (List Char)
  | [] => if pat = [] then some [] else none
  | c :: rest =>
    if pat.isPrefixOf (c :: rest) then some ((c :: rest).drop pat.length)
    else findAfterSub pat rest

/-! ### OS-interaction model -/

/-- The `std::io::ErrorKind` values the code distinguishes: `NotFound`
against everything else. -/
inductive IoErrorKind where
  | notFound
  | permissionDenied
  | outOfResources
  | other
  deriving DecidableEq, Repr

/-- Rust `std::process::ExitStatus`: an exit code when the OS reports one
(`None` when the child was killed by a signal). -/
structure ExitStatus where
  code : Option Int
  deriving DecidableEq, Repr

/-- Rust `ExitStatus::success()`: true exactly when the exit code is 0. -/
def ExitStatus.success (s : ExitStatus) : Bool :=
  s.code = some 0

/-- Result of `Command::output()` when the process ran: exit status plus the
full captured streams (already decoded; `from_utf8_lossy` is modelled as the
identity on the decoded text). -/
structure ProcessOutput where
  status : ExitStatus
  stdout : String
  stderr : String
  deriving DecidableEq, Repr

instance {ε α : Type} [DecidableEq ε] [DecidableEq α] : DecidableEq (Except ε α) := fun a b =>
  match a, b with
  | .error e, .error f => decidable_of_iff (e = f) (by simp)
  | .error _, .ok _ => isFalse (by simp)
  | .ok _, .error _ => isFalse (by simp)
  | .ok x, .ok y => decidable_of_iff (x = y) (by simp)

/-- Behaviour of a successfully spawned child whose streams are piped: the
line sequences the two stream readers produce (each line already stripped of
its terminator by `BufRead::lines`), and the result of `Child::wait()`. -/
structure ChildBehavior where
  stdoutLines : List String
  stderrLines : List String
  wait : Except IoErrorKind ExitStatus
  deriving DecidableEq, Repr

/-- Outcome of `Command::spawn()`. -/
inductive SpawnOutcome where
  | fail (kind : IoErrorKind)
  | ok (child : ChildBehavior)
  deriving DecidableEq, Repr

/-- One external command invocation the code attempted to start:
executable name plus ordered argument list. -/
structure Invocation where
  command : String
  args : List String
  deriving DecidableEq, Repr

/-! ### Data model (`lib.rs` structs and enums) -/

/-- `struct ProjectDiscovery`. -/
structure ProjectDiscovery where
  repoPath : String
  repoName : String
  openspecPresent : Bool
  deriving DecidableEq, Repr

/-- `struct OpenSpecCliStatus`. -/
structure OpenSpecCliStatus where
  available : Bool
  version : Option String
  deriving DecidableEq, Repr

/-- `struct PackageManagerStatus`. -/
structure PackageManagerStatus where
  name : String
  installed : Bool
  version : Option String
  deriving DecidableEq, Repr

/-- `struct CliOutputEvent`: one streamed output line. -/
structure CliOutputEvent where
  operation : String
  stream : String
  line : String
  deriving DecidableEq, Repr

/-- `struct CommandRunOutput`: the Run Result. -/
structure CommandRunOutput where
  status : Int
  stdout : String
  stderr : String
  deriving DecidableEq, Repr

/-- `enum OpenSpecToolsMode`. -/
inductive OpenSpecToolsMode where
  | all
  | custom
  | none
  deriving DecidableEq, Repr

/-- `enum DiscoveryError`.  The `Io` variant carries the error kind in place
of the Rust `std::io::Error` value. -/
inductive DiscoveryError where
  | missingPath
  | notDirectory
  | gitUnavailable
  | notGitWorkTree
  | repoRootUnavailable
  | io (kind : IoErrorKind)
  deriving DecidableEq, Repr

/-- `enum OpenSpecCommandError`.  The `Io` variant carries the error kind in
place of the Rust `std::io::Error` value. -/
inductive OpenSpecCommandError where
  | cliUnavailable
  | unsupportedPackageManager
  | packageManagerUnavailable
  | missingToolsSelection
  | toolsParseFailed
  | commandFailed (command : String) (status : Int) (stderr : String)
  | io (kind : IoErrorKind)
  deriving DecidableEq, Repr

/-- `struct ProjectDiscoveryErrorPayload`. -/
structure ProjectDiscoveryErrorPayload where
  code : String
  message : String
  deriving DecidableEq, Repr

/-- `struct OpenSpecCommandErrorPayload`. -/
structure OpenSpecCommandErrorPayload where
  code : String
  message : String
  deriving DecidableEq, Repr

/-- `impl From<DiscoveryError> for ProjectDiscoveryErrorPayload`. -/
def ProjectDiscoveryErrorPayload.ofError : DiscoveryError → ProjectDiscoveryErrorPayload
  | .missingPath => ⟨"path_not_found", "Path does not exist"⟩
  | .notDirectory => ⟨"path_not_directory", "Path is not a directory"⟩
  | .gitUnavailable => ⟨"git_unavailable", "Git is not available"⟩
  | .notGitWorkTree => ⟨"not_git_work_tree", "Path is not a git work tree"⟩
  | .repoRootUnavailable => ⟨"repo_root_unavailable", "Could not resolve repository root"⟩
  | .io _ => ⟨"io_error", "File system error"⟩

/-- `impl From<OpenSpecCommandError> for OpenSpecCommandErrorPayload`. -/
def OpenSpecCommandErrorPayload.ofError : OpenSpecCommandError → OpenSpecCommandErrorPayload
  | .cliUnavailable => ⟨"openspec_unavailable", "OpenSpec CLI is not available"⟩
  | .unsupportedPackageManager => ⟨"package_manager_unsupported", "Package manager is not supported"⟩
  | .packageManagerUnavailable => ⟨"package_manager_unavailable", "Package manager is not available"⟩
  | .missingToolsSelection => ⟨"tools_missing", "Select at least one tool"⟩
  | .toolsParseFailed => ⟨"tools_parse_failed", "Unable to parse the OpenSpec tools list"⟩
  | .commandFailed command status stderr =>
    ⟨"command_failed",
      if rustTrim stderr = "" then s!"{command} exited with status {status}"
      else s!"{command} exited with status {status}: {stderr}"⟩
  | .io _ => ⟨"io_error", "Command failed to run"⟩

/-! ### Version probes (`command_version`, `package_manager_status`,
`openspec_cli_status`) -/

/-- `fn command_version`: the command's name is recorded for fidelity with
the source; `output` is the outcome of `Command::new(command)
.arg("--version").output()`. -/
def command_version (command : String) (output : Except IoErrorKind ProcessOutput) :
    Option String :=
  match command, output with
  | _, .error _ => Option.none
  | _, .ok o =>
    if ¬ o.status.success then Option.none
    else
      let stdout := rustTrim o.stdout
      let stderr := rustTrim o.stderr
      if ¬ stdout = "" then some stdout
      else if ¬ stderr = "" then some stderr
      else some ""

/-- `fn package_manager_status`. -/
def package_manager_status (name : String) (output : Except IoErrorKind ProcessOutput) :
    PackageManagerStatus :=
  let version := command_version name output
  ⟨name, version.isSome, version⟩

/-- `fn openspec_cli_status` (Tauri command): `output` is the outcome of
`openspec --version`. -/
def openspec_cli_status (output : Except IoErrorKind ProcessOutput) : OpenSpecCliStatus :=
  match command_version "openspec" output with
  | some version => ⟨true, some version⟩
  | Option.none => ⟨false, Option.none⟩

/-! ### Help-text tools parser (`parse_openspec_tools`) -/

/-- The fixed marker phrase introducing the tools list. -/
def markerText : String := "list of:"

/-- `line.find("list of:")` + slicing: text after the first marker
occurrence, when present. -/
def afterMarker (line : String) : Option String :=
  (findAfterSub markerText.data line.data).map String.mk

/-- The loop's stop condition on a peeked line: trimmed line is empty,
starts with the bullet `'-'`, or starts with one of the fixed headers. -/
def isStopLine (line : String) : Bool :=
  let trimmed := rustTrim line
  trimmed = "" || rustStartsWith "-" trimmed
    || rustStartsWith "Options:" trimmed || rustStartsWith "Usage:" trimmed

/-- The inner `while let Some(next) = lines.peek()` loop: capture trimmed
continuation lines until a stop line. -/
def captureSegments : List String → List String
  | [] => []
  | next :: rest =>
    if isStopLine next then []
    else rustTrim next :: captureSegments rest

/-- The entry pipeline applied to the joined segments: split on `','`, trim
each entry, apply `stripEntry` (the trailing-period strip), drop empties.
The strip function is a parameter so that the claimed one-period variant can
be compared with the code's all-periods variant. -/
def toolEntries (stripEntry : String → String) (combined : String) : List String :=
  ((rustSplitChar ',' combined).map (fun entry => stripEntry (rustTrim entry))).filter
    (fun entry => ¬ entry = "")

/-- The code's strip: `trim_end_matches('.')`, removing every trailing
period. -/
def stripAllTrailingDots (s : String) : String :=
  rustTrimEndMatches '.' s

/-- The claim's strip: remove exactly one trailing period when present. -/
def stripOneTrailingDot (s : String) : String :=
  if s.data.getLast? = some '.' then String.mk s.data.dropLast else s

/-- The outer `while let Some(line) = lines.next()` loop of
`parse_openspec_tools`. -/
def parseToolsLoop : List String → Except OpenSpecCommandError (List String)
  | [] => .error .toolsParseFailed
  | line :: rest =>
    match afterMarker line with
    | Option.none => parseToolsLoop rest
    | some tail =>
      let list := rustTrim tail
      let segments := (if list = "" then [] else [list]) ++ captureSegments rest
      let combined := String.intercalate " " segments
      let tools := toolEntries stripAllTrailingDots combined
      if tools = [] then .error .toolsParseFailed
      else .ok tools

/-- `fn parse_openspec_tools`. -/
def parse_openspec_tools (helpText : String) : Except OpenSpecCommandError (List String) :=
  parseToolsLoop (rustLines helpText)

/-- Line-level body of the spec's description of the parser: locate the
first line containing the marker (`dropWhile`), capture the same-line tail
plus following lines up to a stop line (`takeWhile`), join with one space,
then run the entry pipeline with the given trailing-period strip; fail when
the marker is never found or no entries remain. -/
def specToolsLoop (stripEntry : String → String) (ls : List String) :
    Except OpenSpecCommandError (List String) :=
  match ls.dropWhile (fun l => (afterMarker l).isNone) with
  | [] => .error .toolsParseFailed
  | markerLine :: rest =>
    let list := rustTrim ((afterMarker markerLine).getD "")
    let segments :=
      (if list = "" then [] else [list])
        ++ (rest.takeWhile (fun l => !isStopLine l)).map rustTrim
    let tools := toolEntries stripEntry (String.intercalate " " segments)
    if tools = [] then .error .toolsParseFailed
    else .ok tools

/-- The spec's description of the parser, parametrised by the
trailing-period strip so that the claimed one-period variant
(`stripOneTrailingDot`) can be compared with the code's all-periods variant
(`stripAllTrailingDots`). -/
def parse_openspec_tools_spec (stripEntry : String → String) (helpText : String) :
    Except OpenSpecCommandError (List String) :=
  specToolsLoop stripEntry (rustLines helpText)

/-! ### Tools argument builder (`build_tools_arg`) -/

/-- `fn build_tools_arg`. -/
def build_tools_arg (mode : OpenSpecToolsMode) (tools : List String) :
    Except OpenSpecCommandError String :=
  match mode with
  | .all => .ok "all"
  | .custom =>
    let selected := (tools.map rustTrim).filter (fun tool => ¬ tool = "")
    if selected = [] then .error .missingToolsSelection
    else .ok (String.intercalate "," selected)
  | .none => .ok "none"

/-! ### Streaming command runner (`run_command_with_events`) -/

/-- One drain thread (`thread::spawn` with the `BufReader` loop): for each
line, append it to the accumulation buffer (the `Mutex`-guarded `Vec`), then
emit a `CliOutputEvent` to the window, ignoring the emit result (`let _ =`).
`emit` reports whether the listener accepted the event; the returned pair is
(accumulated lines, events actually delivered). -/
def drainStream (operation streamTag : String) (emit : CliOutputEvent → Bool) :
    List String → List String × List CliOutputEvent
  | [] => ([], [])
  | line :: rest =>
    let ev : CliOutputEvent := ⟨operation, streamTag, line⟩
    let tailRes := drainStream operation streamTag emit rest
    (line :: tailRes.1, if emit ev then ev :: tailRes.2 else tailRes.2)

/-- `fn run_command_with_events`.  `spawn` is the outcome of spawning
`command` with `args`; `emit` is the window's event delivery.  On a spawn
failure, `NotFound` maps to `CliUnavailable` for the `"openspec"` executable
and to `PackageManagerUnavailable` otherwise; other kinds map to `Io`.  On a
wait failure the `?` propagates `Io`.  Otherwise both streams are drained,
each accumulation is joined with `"\n"`, the status code defaults to `-1`
when absent, and success of the exit status decides between the Run Result
and `CommandFailed`. -/
def run_command_with_events (operation command : String) (args : List String)
    (spawn : SpawnOutcome) (emit : CliOutputEvent → Bool) :
    Except OpenSpecCommandError CommandRunOutput :=
  match args, spawn with
  | _, .fail kind =>
    if kind = .notFound then
      if command = "openspec" then .error .cliUnavailable
      else .error .packageManagerUnavailable
    else .error (.io kind)
  | _, .ok child =>
    match child.wait with
    | .error kind => .error (.io kind)
    | .ok status =>
      let stdout :=
        String.intercalate "\n" (drainStream operation "stdout" emit child.stdoutLines).1
      let stderr :=
        String.intercalate "\n" (drainStream operation "stderr" emit child.stderrLines).1
      let statusCode := status.code.getD (-1)
      if status.success then .ok ⟨statusCode, stdout, stderr⟩
      else .error (.commandFailed command statusCode stderr)

/-! ### Install command (`install_openspec_cli`) -/

/-- The `match package_manager.as_str()` table of `install_openspec_cli`:
the concrete executable and arguments for each supported manager, `none`
for the unsupported fall-through arm. -/
def installCommandFor (packageManager : String) : Option (String × List String) :=
  if packageManager = "npm" then
    some ("npm", ["install", "-g", "@fission-ai/openspec@latest"])
  else if packageManager = "bun" then
    some ("bun", ["add", "-g", "@fission-ai/openspec@latest"])
  else if packageManager = "yarn" then
    some ("yarn", ["global", "add", "@fission-ai/openspec@latest"])
  else if packageManager = "pnpm" then
    some ("pnpm", ["add", "-g", "@fission-ai/openspec@latest"])
  else Option.none

/-- `fn install_openspec_cli` (Tauri command).  `probe` is the outcome of
the `package_manager --version` probe that `package_manager_status` runs;
`installSpawn` is the outcome of spawning the install command, consulted
only if the code reaches `run_command_with_events`.  Besides the
payload-mapped result, the ordered list of invocations whose start the code
attempted is returned: the version probe always runs first, before the
installed check and the supported-name match. -/
def install_openspec_cli (packageManager : String)
    (probe : Except IoErrorKind ProcessOutput) (installSpawn : SpawnOutcome)
    (emit : CliOutputEvent → Bool) :
    Except OpenSpecCommandErrorPayload CommandRunOutput × List Invocation :=
  let probeInvocation : Invocation := ⟨packageManager, ["--version"]⟩
  let status := package_manager_status packageManager probe
  if ¬ status.installed then
    (.error (OpenSpecCommandErrorPayload.ofError .packageManagerUnavailable),
      [probeInvocation])
  else
    match installCommandFor packageManager with
    | Option.none =>
      (.error (OpenSpecCommandErrorPayload.ofError .unsupportedPackageManager),
        [probeInvocation])
    | some (command, args) =>
      ((run_command_with_events "install" command args installSpawn emit).mapError
          OpenSpecCommandErrorPayload.ofError,
        [probeInvocation, ⟨command, args⟩])

/-! ### Project discovery (`discover_project_info`, `discover_project`) -/

/-- Unix `Path::file_name().and_then(|n| n.to_str())`: the last normal
component of the path, skipping empty and `"."` components, `none` when the
path ends in `".."` or has no normal component. -/
def rustFileName (s : String) : Option String :=
  match ((rustSplitChar '/' s).filter (fun c => ¬ c = "" ∧ ¬ c = ".")).getLast? with
  | some ".." => Option.none
  | some c => some c
  | Option.none => Option.none

/-- `fn discover_project_info`.  Filesystem facts are passed in explicitly:
`pathExists` / `pathIsDir` are `path.exists()` / `path.is_dir()`, `git` is
the outcome of `git -C <path> rev-parse --show-toplevel`, and
`openspecMeta` is `fs::metadata(root/"openspec").map(|m| m.is_dir())`
(`none` when the metadata call fails).  The second component lists the
external invocations the code attempted, in order. -/
def discover_project_info (path : String) (pathExists pathIsDir : Bool)
    (git : Except IoErrorKind ProcessOutput) (openspecMeta : Option Bool) :
    Except DiscoveryError ProjectDiscovery × List Invocation :=
  if ¬ pathExists then (.error .missingPath, [])
  else if ¬ pathIsDir then (.error .notDirectory, [])
  else
    let gitInvocation : Invocation := ⟨"git", ["-C", path, "rev-parse", "--show-toplevel"]⟩
    match git with
    | .error _ => (.error .gitUnavailable, [gitInvocation])
    | .ok output =>
      if ¬ output.status.success then (.error .notGitWorkTree, [gitInvocation])
      else
        let repoRootStr := rustTrim output.stdout
        if repoRootStr = "" then (.error .repoRootUnavailable, [gitInvocation])
        else
          let openspecPresent := openspecMeta.getD false
          let repoName := (rustFileName repoRootStr).getD repoRootStr
          (.ok ⟨repoRootStr, repoName, openspecPresent⟩, [gitInvocation])

/-- `fn discover_project` (Tauri command): `discover_project_info` with the
error payload mapping, the invocation trace carried along. -/
def discover_project (path : String) (pathExists pathIsDir : Bool)
    (git : Except IoErrorKind ProcessOutput) (openspecMeta : Option Bool) :
    Except ProjectDiscoveryErrorPayload ProjectDiscovery × List Invocation :=
  let res := discover_project_info path pathExists pathIsDir git openspecMeta
  (res.1.mapError ProjectDiscoveryErrorPayload.ofError, res.2)

/-! ### Helper lemmas -/

/-- Rebuilding a string from its character data is the identity. -/
@[simp]
theorem mk_data (s : String) : String.mk s.data = s := rfl

/-- The accumulation buffer of a drain thread collects exactly the lines of
its stream, in order, whatever the listener does. -/
theorem drainStream_fst (op tag : String) (emit : CliOutputEvent → Bool)
    (lines : List String) : (drainStream op tag emit lines).1 = lines := by
  induction lines with
  | nil => rfl
  | cons l rest ih => simp [drainStream, ih]

/-- The delivered events of a drain thread are the per-line events the
listener accepted, in order. -/
theorem drainStream_snd (op tag : String) (emit : CliOutputEvent → Bool)
    (lines : List String) :
    (drainStream op tag emit lines).2 =
      (lines.map fun l => (⟨op, tag, l⟩ : CliOutputEvent)).filter emit := by
  induction lines with
  | nil => rfl
  | cons l rest ih =>
    simp only [drainStream, ih, List.map_cons, List.filter_cons]

/-- Character data of the accumulator-style `String.intercalate.go`. -/
theorem intercalate_go_data (s : String) (as : List String) : ∀ acc : String,
    (String.intercalate.go acc s as).data =
      acc.data ++ (as.map fun a => s.data ++ a.data).flatten := by
  induction as with
  | nil => intro acc; simp [String.intercalate.go]
  | cons a as ih =>
    intro acc
    simp [String.intercalate.go, ih]

/-- `List.intercalate` on a cons, unfolded to a flatten of separator-prefixed
chunks. -/
theorem intercalate_cons_flatten {α : Type} (sep : List α) (x : List α) :
    ∀ xs : List (List α),
      List.intercalate sep (x :: xs) = x ++ (xs.map fun a => sep ++ a).flatten := by
  intro xs
  induction xs generalizing x with
  | nil => simp [List.intercalate]
  | cons y ys ih =>
    have ihy := ih y
    rw [List.intercalate] at ihy
    simp [List.intercalate, List.intersperse_cons_cons, ihy, List.append_assoc]

/-- `String.intercalate` agrees with `List.intercalate` on character data. -/
theorem data_intercalate (s : String) (L : List String) :
    (String.intercalate s L).data = List.intercalate s.data (L.map String.data) := by
  cases L with
  | nil => rfl
  | cons a as =>
    show (String.intercalate.go a s as).data = _
    rw [intercalate_go_data, List.map_cons, intercalate_cons_flatten, List.map_map]
    rfl

/-- Splitting a string on newline characters, the claim's reading of
"splitting the accumulated text back on newlines". -/
def splitOnNewlines (s : String) : List String :=
  (s.data.splitOn '\n').map String.mk

/-- Joining newline-free lines with `"\n"` and splitting back on newlines is
the identity on nonempty line lists. -/
theorem splitOnNewlines_intercalate (L : List String) (hne : L ≠ [])
    (h : ∀ l ∈ L, ('\n' : Char) ∉ l.data) :
    splitOnNewlines (String.intercalate "\n" L) = L := by
  unfold splitOnNewlines
  rw [data_intercalate]
  have h2 : ∀ cs ∈ L.map String.data, ('\n' : Char) ∉ cs := by
    intro cs hcs
    rcases List.mem_map.mp hcs with ⟨l, hl, rfl⟩
    exact h l hl
  have h3 : L.map String.data ≠ [] := by simpa using hne
  rw [show ("\n" : String).data = ['\n'] from rfl]
  rw [List.splitOn_intercalate (L.map String.data) '\n' h2 h3, List.map_map]
  simp [Function.comp_def]

/-- On a zero exit code, `run_command_with_events` returns the Run Result
with both accumulations joined by newlines. -/
theorem run_ok_of_success (op cmd : String) (args : List String)
    (emit : CliOutputEvent → Bool) (child : ChildBehavior)
    (hw : child.wait = .ok ⟨some 0⟩) :
    run_command_with_events op cmd args (.ok child) emit =
      .ok ⟨0, String.intercalate "\n" child.stdoutLines,
        String.intercalate "\n" child.stderrLines⟩ := by
  simp [run_command_with_events, hw, ExitStatus.success, drainStream_fst]

/-! ### Claims -/

/-- Claim C1: for an invocation whose child spawns and exits, a success exit
status (code 0) yields a Run Result with the accumulated stdout and stderr;
a non-success exit yields `CommandFailed` carrying the command name, the
exact exit code (`-1` when the OS reports none) and the exact accumulated
stderr text. -/
theorem claim_C1 (op cmd : String) (args : List String) (emit : CliOutputEvent → Bool)
    (child : ChildBehavior) (st : ExitStatus) (hw : child.wait = .ok st) :
    (st.code = some 0 →
      run_command_with_events op cmd args (.ok child) emit =
        .ok ⟨0, String.intercalate "\n" child.stdoutLines,
          String.intercalate "\n" child.stderrLines⟩) ∧
    (∀ c : Int, st.code = some c → c ≠ 0 →
      run_command_with_events op cmd args (.ok child) emit =
        .error (.commandFailed cmd c (String.intercalate "\n" child.stderrLines))) ∧
    (st.code = Option.none →
      run_command_with_events op cmd args (.ok child) emit =
        .error (.commandFailed cmd (-1) (String.intercalate "\n" child.stderrLines))) := by
  refine ⟨fun h0 => ?_, fun c hc hne => ?_, fun hn => ?_⟩ <;>
    simp_all [run_command_with_events, ExitStatus.success, drainStream_fst]

theorem claim_C1_witness :
    run_command_with_events "x" "c" [] (.ok ⟨["a"], ["boom"], .ok ⟨some 2⟩⟩)
        (fun _ => true) =
      .error (.commandFailed "c" 2 "boom") :=
  (claim_C1 "x" "c" [] (fun _ => true) ⟨["a"], ["boom"], .ok ⟨some 2⟩⟩ ⟨some 2⟩
    rfl).2.1 2 rfl (by decide)

/-- Claim C3: a spawn failure of kind `NotFound` is classified as
`CliUnavailable` when the executable is `"openspec"` and as
`PackageManagerUnavailable` otherwise; any other spawn failure kind is the
generic `Io` error. -/
theorem claim_C3 (op cmd : String) (args : List String) (emit : CliOutputEvent → Bool) :
    (cmd = "openspec" →
      run_command_with_events op cmd args (.fail .notFound) emit =
        .error .cliUnavailable) ∧
    (cmd ≠ "openspec" →
      run_command_with_events op cmd args (.fail .notFound) emit =
        .error .packageManagerUnavailable) ∧
    (∀ kind : IoErrorKind, kind ≠ .notFound →
      run_command_with_events op cmd args (.fail kind) emit = .error (.io kind)) := by
  refine ⟨fun h => ?_, fun h => ?_, fun kind h => ?_⟩ <;>
    simp_all [run_command_with_events]

theorem claim_C3_witness :
    run_command_with_events "init" "openspec" [] (.fail .notFound) (fun _ => true) =
        .error .cliUnavailable ∧
      run_command_with_events "install" "npm" [] (.fail .notFound) (fun _ => true) =
        .error .packageManagerUnavailable ∧
      run_command_with_events "install" "npm" [] (.fail .permissionDenied) (fun _ => true) =
        .error (.io .permissionDenied) :=
  ⟨(claim_C3 "init" "openspec" [] (fun _ => true)).1 rfl,
    (claim_C3 "install" "npm" [] (fun _ => true)).2.1 (by decide),
    (claim_C3 "install" "npm" [] (fun _ => true)).2.2 .permissionDenied (by decide)⟩

/-- Claim C9: event delivery is best-effort and observation-free: the
accumulated lines of a drain always equal the stream's lines regardless of
the listener, the delivered events are exactly those the listener accepted,
and the result of `run_command_with_events` does not depend on the listener
at all. -/
theorem claim_C9 :
    (∀ (op tag : String) (emit : CliOutputEvent → Bool) (lines : List String),
      (drainStream op tag emit lines).1 = lines ∧
        (drainStream op tag emit lines).2 =
          (lines.map fun l => (⟨op, tag, l⟩ : CliOutputEvent)).filter emit) ∧
    ∀ (op cmd : String) (args : List String) (child : ChildBehavior)
      (emit emitB : CliOutputEvent → Bool),
      run_command_with_events op cmd args (.ok child) emit =
        run_command_with_events op cmd args (.ok child) emitB := by
  refine ⟨fun op tag emit lines => ⟨drainStream_fst .., drainStream_snd ..⟩,
    fun op cmd args child emit emitB => ?_⟩
  simp [run_command_with_events, drainStream_fst]

/-- Claim C2 counterexample: a child that writes no stdout lines at all has
accumulated stdout text `""`, and splitting `""` back on newlines yields
`[""]`, not the original empty line sequence — so the split-back clause of
the claim fails for streams with zero lines. -/
theorem claim_C2_counterexample :
    run_command_with_events "init" "openspec" []
        (.ok ⟨[], ["e"], .ok ⟨some 0⟩⟩) (fun _ => true) =
      .ok ⟨0, "", "e"⟩ ∧
    splitOnNewlines "" ≠ ([] : List String) := by
  constructor
  · rfl
  · decide

/-- Claim C2 (amended): on a successful run, each stream's accumulated text
is its lines joined with a single newline in original order; provided the
stream produced at least one line, splitting that text back on newlines
reproduces exactly the original line sequence (lines produced by the reader
never contain a newline). -/
theorem claim_C2 (op cmd : String) (args : List String) (emit : CliOutputEvent → Bool)
    (child : ChildBehavior) (hw : child.wait = .ok ⟨some 0⟩)
    (hout : ∀ l ∈ child.stdoutLines, ('\n' : Char) ∉ l.data)
    (herr : ∀ l ∈ child.stderrLines, ('\n' : Char) ∉ l.data) :
    run_command_with_events op cmd args (.ok child) emit =
      .ok ⟨0, String.intercalate "\n" child.stdoutLines,
        String.intercalate "\n" child.stderrLines⟩ ∧
    (child.stdoutLines ≠ [] →
      splitOnNewlines (String.intercalate "\n" child.stdoutLines) = child.stdoutLines) ∧
    (child.stderrLines ≠ [] →
      splitOnNewlines (String.intercalate "\n" child.stderrLines) = child.stderrLines) := by
  refine ⟨run_ok_of_success op cmd args emit child hw,
    fun h1 => splitOnNewlines_intercalate _ h1 hout,
    fun h2 => splitOnNewlines_intercalate _ h2 herr⟩

theorem claim_C2_witness :
    run_command_with_events "x" "c" [] (.ok ⟨["a", "b"], ["e"], .ok ⟨some 0⟩⟩)
        (fun _ => false) =
      .ok ⟨0, "a\nb", "e"⟩ ∧
    splitOnNewlines "a\nb" = ["a", "b"] ∧ splitOnNewlines "e" = ["e"] := by
  have h := claim_C2 "x" "c" [] (fun _ => false) ⟨["a", "b"], ["e"], .ok ⟨some 0⟩⟩
    rfl (by decide) (by decide)
  exact ⟨h.1, h.2.1 (by decide), h.2.2 (by decide)⟩

/-- The capture loop of the parser collects exactly the trimmed lines up to
the first stop line. -/
theorem captureSegments_eq (ls : List String) :
    captureSegments ls = (ls.takeWhile (fun l => !isStopLine l)).map rustTrim := by
  induction ls with
  | nil => rfl
  | cons next rest ih =>
    cases h : isStopLine next <;> simp [captureSegments, List.takeWhile_cons, h, ih]

/-- The outer marker-search loop of the parser equals the spec's
dropWhile/takeWhile description with the all-periods strip. -/
theorem parseToolsLoop_eq (ls : List String) :
    parseToolsLoop ls = specToolsLoop stripAllTrailingDots ls := by
  induction ls with
  | nil => rfl
  | cons line rest ih =>
    cases h : afterMarker line with
    | none =>
      simpa [parseToolsLoop, specToolsLoop, List.dropWhile_cons, h] using ih
    | some tail =>
      simp [parseToolsLoop, specToolsLoop, List.dropWhile_cons, h, captureSegments_eq]

/-- Claim C5 counterexample: the code strips every trailing period from an
entry (`trim_end_matches('.')`), not just one; on `"list of: a.., b"` the
code yields `["a", "b"]` while the claim's one-period stripping yields
`["a.", "b"]`. -/
theorem claim_C5_counterexample :
    parse_openspec_tools "list of: a.., b" = .ok ["a", "b"] ∧
    parse_openspec_tools_spec stripOneTrailingDot "list of: a.., b" = .ok ["a.", "b"] ∧
    (Except.ok ["a", "b"] : Except OpenSpecCommandError (List String)) ≠ .ok ["a.", "b"] := by
  refine ⟨by decide, by decide, by decide⟩

/-- Claim C5 (amended): the tools parser locates a line containing the
marker phrase, captures the fragment after the marker on that line plus
subsequent trimmed lines until a blank, bullet-starting or section-header
line; joins the fragments with a single space, splits on commas, trims each
entry, strips every trailing period, drops empty entries; it fails with
`ToolsParseFailed` exactly when the marker is never found or the resulting
list is empty. -/
theorem claim_C5 (helpText : String) :
    parse_openspec_tools helpText =
      parse_openspec_tools_spec stripAllTrailingDots helpText :=
  parseToolsLoop_eq (rustLines helpText)

/-- Claim C6: `build_tools_arg` returns the literal `"all"` in All mode and
`"none"` in None mode whatever the supplied list; in Custom mode it trims
the supplied names, drops the empty ones, fails with
`MissingToolsSelection` when none survive, and otherwise joins the
survivors with commas in input order. -/
theorem claim_C6 (tools : List String) :
    build_tools_arg .all tools = .ok "all" ∧
    build_tools_arg .none tools = .ok "none" ∧
    ((tools.map rustTrim).filter (fun tool => ¬ tool = "") = [] →
      build_tools_arg .custom tools = .error .missingToolsSelection) ∧
    ((tools.map rustTrim).filter (fun tool => ¬ tool = "") ≠ [] →
      build_tools_arg .custom tools =
        .ok (String.intercalate ","
          ((tools.map rustTrim).filter (fun tool => ¬ tool = "")))) := by
  refine ⟨rfl, rfl, fun h => ?_, fun h => ?_⟩
  · simp only [build_tools_arg]
    rw [if_pos h]
  · simp only [build_tools_arg]
    rw [if_neg h]

theorem claim_C6_witness :
    build_tools_arg .all ["x"] = .ok "all" ∧
    build_tools_arg .none ["x"] = .ok "none" ∧
    build_tools_arg .custom ["  ", ""] = .error .missingToolsSelection ∧
    build_tools_arg .custom [" claude ", "", "cline"] = .ok "claude,cline" :=
  ⟨(claim_C6 ["x"]).1, (claim_C6 ["x"]).2.1,
    (claim_C6 ["  ", ""]).2.2.1 (by decide),
    (claim_C6 [" claude ", "", "cline"]).2.2.2 (by decide)⟩

/-- Claim C7: the version probe never produces a Classified Error: a spawn
failure or a non-success exit is reported as "not installed" (`none`); on a
zero exit the version is the trimmed stdout if non-empty, else the trimmed
stderr if non-empty, else the empty string, and in all three cases the
probe reports the tool installed; `openspec_cli_status` is total and just
repackages the probe. -/
theorem claim_C7 :
    (∀ (cmd : String) (kind : IoErrorKind),
      command_version cmd (.error kind) = Option.none) ∧
    (∀ (cmd : String) (o : ProcessOutput), o.status.success = false →
      command_version cmd (.ok o) = Option.none) ∧
    (∀ (cmd : String) (o : ProcessOutput), o.status.code = some 0 →
      command_version cmd (.ok o) =
        some (if ¬ rustTrim o.stdout = "" then rustTrim o.stdout
          else if ¬ rustTrim o.stderr = "" then rustTrim o.stderr else "")) ∧
    (∀ (cmd : String) (o : ProcessOutput), o.status.code = some 0 →
      (command_version cmd (.ok o)).isSome = true) ∧
    (∀ output : Except IoErrorKind ProcessOutput,
      openspec_cli_status output =
        ⟨(command_version "openspec" output).isSome,
          command_version "openspec" output⟩) := by
  refine ⟨fun cmd kind => rfl, fun cmd o h => ?_, fun cmd o h => ?_, fun cmd o h => ?_,
    fun output => ?_⟩
  · simp [command_version, h]
  · by_cases h1 : rustTrim o.stdout = "" <;> by_cases h2 : rustTrim o.stderr = "" <;>
      simp [command_version, ExitStatus.success, h, h1, h2]
  · by_cases h1 : rustTrim o.stdout = "" <;> by_cases h2 : rustTrim o.stderr = "" <;>
      simp [command_version, ExitStatus.success, h, h1, h2]
  · cases h : command_version "openspec" output <;> simp [openspec_cli_status, h]

theorem claim_C7_witness :
    command_version "npm" (.error .notFound) = Option.none ∧
    command_version "npm" (.ok ⟨⟨some 1⟩, "x", "y"⟩) = Option.none ∧
    command_version "openspec" (.ok ⟨⟨some 0⟩, "", " 1.2.3 "⟩) = some "1.2.3" ∧
    openspec_cli_status (.ok ⟨⟨some 0⟩, "", ""⟩) = ⟨true, some ""⟩ := by
  refine ⟨claim_C7.1 "npm" .notFound, claim_C7.2.1 "npm" ⟨⟨some 1⟩, "x", "y"⟩ (by decide),
    ?_, ?_⟩
  · have h := claim_C7.2.2.1 "openspec" ⟨⟨some 0⟩, "", " 1.2.3 "⟩ rfl
    simpa using h
  · have h := claim_C7.2.2.2.2 (.ok ⟨⟨some 0⟩, "", ""⟩)
    simpa using h

/-- Claim C4 counterexample: for the unsupported manager name `"cargo"` the
code still attempts to start a process — the `cargo --version` availability
probe — before the unsupported-name check, and when that probe reports the
manager not installed the error is `package_manager_unavailable`, not
`package_manager_unsupported`. -/
theorem claim_C4_counterexample :
    install_openspec_cli "cargo" (.ok ⟨⟨some 0⟩, "cargo 1.75.0", ""⟩) (.fail .notFound)
        (fun _ => true) =
      (.error ⟨"package_manager_unsupported", "Package manager is not supported"⟩,
        [⟨"cargo", ["--version"]⟩]) ∧
    install_openspec_cli "cargo" (.error .notFound) (.fail .notFound) (fun _ => true) =
      (.error ⟨"package_manager_unavailable", "Package manager is not available"⟩,
        [⟨"cargo", ["--version"]⟩]) ∧
    ([(⟨"cargo", ["--version"]⟩ : Invocation)] : List Invocation) ≠ [] := by
  refine ⟨by decide, by decide, by decide⟩

/-- Claim C4 (amended): for every package manager name outside
{npm, bun, yarn, pnpm}, `install_openspec_cli` spawns only the
`name --version` availability probe and never the install command; it fails
with `package_manager_unsupported` when the probe reports the manager
installed and with `package_manager_unavailable` otherwise. -/
theorem claim_C4 (pm : String) (probe : Except IoErrorKind ProcessOutput)
    (installSpawn : SpawnOutcome) (emit : CliOutputEvent → Bool)
    (h1 : pm ≠ "npm") (h2 : pm ≠ "bun") (h3 : pm ≠ "yarn") (h4 : pm ≠ "pnpm") :
    install_openspec_cli pm probe installSpawn emit =
      (.error (if (command_version pm probe).isSome then
          ⟨"package_manager_unsupported", "Package manager is not supported"⟩
        else ⟨"package_manager_unavailable", "Package manager is not available"⟩),
        [⟨pm, ["--version"]⟩]) := by
  by_cases hv : (command_version pm probe).isSome <;>
    simp [install_openspec_cli, package_manager_status, installCommandFor,
      OpenSpecCommandErrorPayload.ofError, h1, h2, h3, h4, hv]

theorem claim_C4_witness :
    install_openspec_cli "cargo" (.ok ⟨⟨some 0⟩, "cargo 1.75.0", ""⟩) (.fail .notFound)
        (fun _ => true) =
      (.error ⟨"package_manager_unsupported", "Package manager is not supported"⟩,
        [⟨"cargo", ["--version"]⟩]) :=
  (claim_C4 "cargo" (.ok ⟨⟨some 0⟩, "cargo 1.75.0", ""⟩) (.fail .notFound) (fun _ => true)
    (by decide) (by decide) (by decide) (by decide)).trans (by decide)

/-- Claim C8: project discovery on a non-existent path fails with the
`path_not_found` payload and on an existing non-directory path with the
`path_not_directory` payload, in both cases without attempting any external
process invocation (empty trace). -/
theorem claim_C8 (path : String) (pathIsDir : Bool)
    (git : Except IoErrorKind ProcessOutput) (meta : Option Bool) :
    discover_project path false pathIsDir git meta =
      (.error ⟨"path_not_found", "Path does not exist"⟩, []) ∧
    discover_project path true false git meta =
      (.error ⟨"path_not_directory", "Path is not a directory"⟩, []) := by
  exact ⟨rfl, rfl⟩

/-- Project discovery never produces the `Io` error variant: every branch of
`discover_project_info` ends in one of the five specific errors or success. -/
theorem discover_project_info_no_io (path : String) (pathExists pathIsDir : Bool)
    (git : Except IoErrorKind ProcessOutput) (meta : Option Bool) (kind : IoErrorKind) :
    (discover_project_info path pathExists pathIsDir git meta).1 ≠ .error (.io kind) := by
  cases pathExists <;> cases pathIsDir <;> rcases git with k | o <;>
    simp [discover_project_info] <;> split_ifs <;> simp

/-- Claim C10: every failure to start the git process during discovery —
whatever its error kind, including permission errors — yields
`GitUnavailable`; the `Io` variant (`io_error` payload code) is never
produced by project discovery. -/
theorem claim_C10 :
    (∀ (path : String) (kind : IoErrorKind) (meta : Option Bool),
      discover_project_info path true true (.error kind) meta =
        (.error .gitUnavailable,
          [⟨"git", ["-C", path, "rev-parse", "--show-toplevel"]⟩])) ∧
    (∀ (path : String) (pathExists pathIsDir : Bool)
      (git : Except IoErrorKind ProcessOutput) (meta : Option Bool) (kind : IoErrorKind),
      (discover_project_info path pathExists pathIsDir git meta).1 ≠ .error (.io kind)) ∧
    (∀ (path : String) (pathExists pathIsDir : Bool)
      (git : Except IoErrorKind ProcessOutput) (meta : Option Bool)
      (e : ProjectDiscoveryErrorPayload),
      (discover_project path pathExists pathIsDir git meta).1 = .error e →
        e.code ≠ "io_error") := by
  refine ⟨fun path kind meta => rfl,
    fun path pe d git meta kind => discover_project_info_no_io path pe d git meta kind,
    fun path pe d git meta e he => ?_⟩
  have hdp : (discover_project path pe d git meta).1 =
      ((discover_project_info path pe d git meta).1).mapError
        ProjectDiscoveryErrorPayload.ofError := rfl
  rw [hdp] at he
  cases hinfo : (discover_project_info path pe d git meta).1 with
  | ok v =>
    rw [hinfo] at he
    simp [Except.mapError] at he
  | error dErr =>
    rw [hinfo] at he
    simp only [Except.mapError] at he
    injection he with h
    subst h
    cases dErr with
    | io k => exact absurd hinfo (discover_project_info_no_io path pe d git meta k)
    | missingPath => decide
    | notDirectory => decide
    | gitUnavailable => decide
    | notGitWorkTree => decide
    | repoRootUnavailable => decide

theorem claim_C10_witness :
    discover_project_info "/p" true true (.error .permissionDenied) Option.none =
      (.error .gitUnavailable,
        [⟨"git", ["-C", "/p", "rev-parse", "--show-toplevel"]⟩]) ∧
    (discover_project_info "/p" true true (.error .permissionDenied) Option.none).1 ≠
      .error (.io .permissionDenied) ∧
    ProjectDiscoveryErrorPayload.code ⟨"path_not_found", "Path does not exist"⟩ ≠
      "io_error" :=
  ⟨claim_C10.1 "/p" .permissionDenied Option.none,
    claim_C10.2.1 "/p" true true (.error .permissionDenied) Option.none .permissionDenied,
    claim_C10.2.2 "/p" false true (.error .permissionDenied) Option.none
      ⟨"path_not_found", "Path does not exist"⟩ (by decide)⟩

end SpecOps
